import Mathlib

/-
Verification of the component reactor in src/vgtk/src/component.rs.

The embedding models ComponentTask::process (lines 121-160) as a function
over the sequence of events that the merged stream has ready at the time of
the call.  A call to Stream::poll_next is represented by a queue
(List (ComponentMessage M P)) of ready events together with a flag
(closed : Bool) telling whether, once the queue is empty, poll_next answers
Poll::Ready(None) (all senders dropped) or Poll::Pending.  The component
instance is a value of an abstract state type S with the behaviours of the
Component trait (lines 19-39) supplied as functions; ui_state.patch is an
abstract function U → V → U × Bool.  Calls that the Rust code performs are
recorded in an Act trace, and a Rust panic (unimplemented!) is modelled
as the PollRes.panicked result.  The thread-local LOCAL_CONTEXT slot
(lines 192-200) and the Future::poll wrapper (lines 202-222) are modelled
by explicit LocalContext values threaded through pollTask.
-/

/-- The ComponentMessage enum of component.rs lines 49-54: the lifecycle
protocol delivered through the merged stream. -/
inductive ComponentMessage (M P : Type) where
  | Update : M → ComponentMessage M P
  | Props : P → ComponentMessage M P
  | Mounted : ComponentMessage M P
  | Unmounted : ComponentMessage M P
deriving DecidableEq, Repr

/-- The behaviours of one component instance, from the Component trait
(component.rs lines 19-39).  change returns Option: none models the call
panicking (the default body is unimplemented!, lines 30-32). -/
structure ComponentImpl (S M P V : Type) where
  update : S → M → S × Bool
  change : S → P → Option (S × Bool)
  mounted : S → S
  unmounted : S → S
  view : S → V

/-- The default Component::update body (component.rs lines 22-24): the
message is ignored and false is returned. -/
def defaultUpdate (S M : Type) : S → M → S × Bool := fun s _ => (s, false)

/-- The default Component::change body (component.rs lines 30-32): the call
is unimplemented! and panics, modelled as none. -/
def defaultChange (S P : Type) : S → P → Option (S × Bool) := fun _ _ => none

/-- One observable call performed by ComponentTask::process, in order. -/
inductive Act (M P V : Type) where
  | updateCall : M → Bool → Act M P V
  | changeCall : P → Bool → Act M P V
  | changePanicked : P → Act M P V
  | mountedCall : Act M P V
  | unmountedCall : Act M P V
  | viewCall : Act M P V
  | muteCall : Act M P V
  | patchCall : V → Bool → Act M P V
  | unmuteCall : Act M P V
deriving DecidableEq, Repr

/-- The value a call to process ends with: Poll::Pending, Poll::Ready(())
or a Rust panic carrying its message. -/
inductive PollRes where
  | pending : PollRes
  | ready : PollRes
  | panicked : String → PollRes
deriving DecidableEq, Repr

/-- True exactly for the panicked result. -/
def PollRes.isPanicked : PollRes → Bool
  | PollRes.panicked _ => true
  | _ => false

/-- The outcome of one call to process: the trace of calls it performed,
the final component state, the final ui state, whether the scope of the
task is left muted, and the poll result. -/
structure ProcResult (S U M P V : Type) where
  trace : List (Act M P V)
  state : S
  ui : U
  muted : Bool
  res : PollRes
deriving DecidableEq, Repr

variable {S M P V U : Type}

/-- The loop body of ComponentTask::process (component.rs lines 123-159),
by recursion on the queue of ready events.  The match arms are tried in the
source order: Poll::Ready(Some(msg)) while the queue is nonempty; on the
empty queue Poll::Ready(None) when closed (the arm at lines 153-156, which
is reached even when render is set, since the guard of the arm at line 143
requires a Pending poll); otherwise the render branch (lines 143-152) or
the plain Pending return (line 157).  The render argument is the render
flag accumulated so far; muted is the mute state of the task scope. -/
def processLoop (impl : ComponentImpl S M P V) (patchFn : U → V → U × Bool) :
    List (ComponentMessage M P) → Bool → S → U → Bool → Bool → ProcResult S U M P V
  | [], closed, s, u, muted, render =>
      if closed then
        { trace := [], state := s, ui := u, muted := muted, res := PollRes.ready }
      else if render then
        let v := impl.view s
        let pr := patchFn u v
        if pr.2 then
          { trace := [Act.viewCall, Act.muteCall, Act.patchCall v true,
              Act.unmuteCall],
            state := s, ui := pr.1, muted := false, res := PollRes.pending }
        else
          { trace := [Act.viewCall, Act.muteCall, Act.patchCall v false],
            state := s, ui := pr.1, muted := true, res := PollRes.panicked "failed patch" }
      else
        { trace := [], state := s, ui := u, muted := muted, res := PollRes.pending }
  | ComponentMessage.Update m :: rest, closed, s, u, muted, render =>
      let st := impl.update s m
      let r := processLoop impl patchFn rest closed st.1 u muted (render || st.2)
      { r with trace := Act.updateCall m st.2 :: r.trace }
  | ComponentMessage.Props p :: rest, closed, s, u, muted, render =>
      match impl.change s p with
      | none =>
          { trace := [Act.changePanicked p], state := s, ui := u, muted := muted,
            res := PollRes.panicked "change unimplemented" }
      | some st =>
          let r := processLoop impl patchFn rest closed st.1 u muted (render || st.2)
          { r with trace := Act.changeCall p st.2 :: r.trace }
  | ComponentMessage.Mounted :: rest, closed, s, u, muted, render =>
      let r := processLoop impl patchFn rest closed (impl.mounted s) u muted render
      { r with trace := Act.mountedCall :: r.trace }
  | ComponentMessage.Unmounted :: rest, closed, s, u, muted, render =>
      let r := processLoop impl patchFn rest closed (impl.unmounted s) u muted render
      { r with trace := Act.unmountedCall :: r.trace }

/-- ComponentTask::process (component.rs line 121): the loop entered with
the render flag cleared (line 122). -/
def process (impl : ComponentImpl S M P V) (patchFn : U → V → U × Bool)
    (events : List (ComponentMessage M P)) (closed : Bool) (s : S) (u : U)
    (muted : Bool) : ProcResult S U M P V :=
  processLoop impl patchFn events closed s u muted false

/-- True for the actions that dispatch one drained event (the four arms of
the match at lines 125-142, the panicking change call included). -/
def Act.isDispatch : Act M P V → Bool
  | Act.updateCall _ _ => true
  | Act.changeCall _ _ => true
  | Act.changePanicked _ => true
  | Act.mountedCall => true
  | Act.unmountedCall => true
  | _ => false

/-- True exactly for a patchCall action. -/
def Act.isPatch : Act M P V → Bool
  | Act.patchCall _ _ => true
  | _ => false

/-- True for a dispatched handler call that returned changed = true. -/
def Act.isChangedTrue : Act M P V → Bool
  | Act.updateCall _ c => c
  | Act.changeCall _ c => c
  | _ => false

/-- How many patch calls a trace holds. -/
def countPatch (t : List (Act M P V)) : Nat := t.countP Act.isPatch

/-- True for the two lifecycle events whose dispatch only runs a hook
(Mounted, Unmounted). -/
def ComponentMessage.isHookMsg : ComponentMessage M P → Bool
  | ComponentMessage.Mounted => true
  | ComponentMessage.Unmounted => true
  | _ => false

/-- True for an Update event. -/
def ComponentMessage.isUpdateMsg : ComponentMessage M P → Bool
  | ComponentMessage.Update _ => true
  | _ => false

/-- The action that dispatching a hook event records. -/
def hookAction : ComponentMessage M P → Act M P V
  | ComponentMessage.Mounted => Act.mountedCall
  | ComponentMessage.Unmounted => Act.unmountedCall
  | ComponentMessage.Update m => Act.updateCall m false
  | ComponentMessage.Props p => Act.changeCall p false

/-- The state transformation a hook event performs. -/
def hookStep (impl : ComponentImpl S M P V) (s : S) : ComponentMessage M P → S
  | ComponentMessage.Mounted => impl.mounted s
  | ComponentMessage.Unmounted => impl.unmounted s
  | _ => s

/-- A concrete component used to evaluate the theorems: state, messages,
properties, views and ui states are all Nat. -/
def cImpl : ComponentImpl Nat Nat Nat Nat :=
  { update := fun s m => (s + m, true)
    change := fun _ p => some (p, true)
    mounted := fun s => s + 100
    unmounted := fun s => s + 1000
    view := fun s => s }

/-- A concrete patch function that always succeeds. -/
def cPatchOk : Nat → Nat → Nat × Bool := fun _ v => (v, true)

/-- A concrete patch function that always reports failure. -/
def cPatchBad : Nat → Nat → Nat × Bool := fun u _ => (u, false)

/-- The concrete component with the default update body. -/
def cImplNoUp : ComponentImpl Nat Nat Nat Nat :=
  { cImpl with update := defaultUpdate Nat Nat }

/-- The concrete component with the default change body. -/
def cImplNoCh : ComponentImpl Nat Nat Nat Nat :=
  { cImpl with change := defaultChange Nat Nat }

example :
    (process cImpl cPatchOk [ComponentMessage.Update 1] true 0 0 false).res
      = PollRes.ready := by
  decide

example :
    (process cImpl cPatchOk [ComponentMessage.Update 1] false 0 0 false).trace
      = [Act.updateCall 1 true, Act.viewCall, Act.muteCall,
          Act.patchCall 1 true, Act.unmuteCall] := by
  decide

example :
    (process cImpl cPatchBad [ComponentMessage.Update 1] false 0 0 false).res
      = PollRes.panicked "failed patch" := by
  decide

example :
    (process cImplNoCh cPatchOk [ComponentMessage.Props 7] false 0 0 false).res
      = PollRes.panicked "change unimplemented" := by
  decide

/-- Modelled from the spec: the Scope type lives in scope.rs, which is not
among the sources; spec section 2 describes it as a typed, cloneable send
handle for one running instance.  A scope is represented by the TypeId of
its component type and an identity for the instance it sends to. -/
structure Scope where
  typeId : Nat
  sid : Nat
deriving DecidableEq, Repr

/-- Modelled from the spec: the type-erased scope of scope.rs (spec section
2, Type-Erased Scope), a wrapper storing the component-type tag recorded at
erasure time. -/
structure AnyScope where
  typeId : Nat
  sid : Nat
deriving DecidableEq, Repr

/-- Modelled from the spec: the conversion of a Scope into an AnyScope used
at line 212 of component.rs (scope.clone().into()). -/
def Scope.intoAny (s : Scope) : AnyScope :=
  { typeId := s.typeId, sid := s.sid }

/-- Modelled from the spec: AnyScope::try_get recovers the original typed
Scope only when the tag recorded at erasure time matches the requested
component type, else yields nothing (spec sections 3 and 4.1). -/
def AnyScope.tryGet (expected : Nat) (a : AnyScope) : Option Scope :=
  if a.typeId = expected then some { typeId := a.typeId, sid := a.sid } else none

/-- The LocalContext struct of component.rs lines 192-196: the thread-local
slot holding the type-erased parent scope and a weak reference to the root
widget (a widget is represented by a Nat identity, the weak reference by
the same identity). -/
structure LocalContext where
  parent_scope : Option AnyScope
  current_widget : Option Nat
deriving DecidableEq, Repr

/-- The Default derivation of LocalContext (line 192): both fields empty,
the value the slot is reset to after a poll (lines 217-219). -/
def LocalContext.empty : LocalContext :=
  { parent_scope := none, current_widget := none }

/-- The state of one ComponentTask together with the abstract collaborators
its poll needs: the component behaviours, the patch function of the vdom
State, the root-widget accessor (ui_state.object(), spec section 6), the
fields of the struct at lines 67-77, and the ready events of its merged
channel. -/
structure ComponentTaskModel (S M P V U : Type) where
  impl : ComponentImpl S M P V
  patchFn : U → V → U × Bool
  rootOf : U → Nat
  parent_scope : Option Scope
  state : S
  ui : U
  muted : Bool
  events : List (ComponentMessage M P)
  closed : Bool

/-- The LocalContext value written into the slot at lines 210-215: the
parent scope erased, and a weak reference to the root widget of the
current ui state.  The previous content of the slot does not appear: the
assignment overwrites the whole struct. -/
def publishedContext (t : ComponentTaskModel S M P V U) : LocalContext :=
  { parent_scope := t.parent_scope.map Scope.intoAny,
    current_widget := some (t.rootOf t.ui) }

/-- What one poll of the Future impl (lines 209-221) leaves behind: the
context published for the duration of process, the context left in the
slot when the poll ends, and the result of process. -/
structure PollRecord (S U M P V : Type) where
  published : LocalContext
  final : LocalContext
  proc : ProcResult S U M P V

/-- ComponentTask::poll (component.rs lines 209-221): overwrite the
thread-local slot, run process, then reset the slot to Default.  When
process panics the unwind skips the reset, so the slot keeps the published
value; otherwise the slot is reset to the empty context whatever the
outcome.  The tl argument is the content of the slot before the poll; it
is discarded by the overwriting assignment. -/
def pollTask (t : ComponentTaskModel S M P V U) (_tl : LocalContext) :
    PollRecord S U M P V :=
  let pub := publishedContext t
  let r := process t.impl t.patchFn t.events t.closed t.state t.ui t.muted
  if r.res.isPanicked then
    { published := pub, final := pub, proc := r }
  else
    { published := pub, final := LocalContext.empty, proc := r }

/-- How a call to ComponentTask::current_parent_scope ends: one of the two
panics of lines 170-175, or the recovered typed scope. -/
inductive CpsResult where
  | panicNoParent : CpsResult
  | panicTypeMismatch : CpsResult
  | ok : Scope → CpsResult
deriving DecidableEq, Repr

/-- ComponentTask::current_parent_scope (component.rs lines 166-180): read
the thread-local slot; panic when no parent scope is set; panic when
try_get for the requested component type yields nothing; otherwise return
a clone of the recovered typed scope. -/
def current_parent_scope (expected : Nat) (ctx : LocalContext) : CpsResult :=
  match ctx.parent_scope with
  | none => CpsResult.panicNoParent
  | some a =>
    match a.tryGet expected with
    | none => CpsResult.panicTypeMismatch
    | some sc => CpsResult.ok sc

/-- A concrete task used to evaluate the theorems. -/
def cTask : ComponentTaskModel Nat Nat Nat Nat Nat :=
  { impl := cImpl
    patchFn := cPatchOk
    rootOf := fun u => u + 5
    parent_scope := some { typeId := 3, sid := 17 }
    state := 0
    ui := 0
    muted := false
    events := [ComponentMessage.Update 1]
    closed := false }

example : (pollTask cTask LocalContext.empty).final = LocalContext.empty := by decide
example :
    current_parent_scope 3 (publishedContext cTask)
      = CpsResult.ok { typeId := 3, sid := 17 } := by decide
example : current_parent_scope 4 (publishedContext cTask) = CpsResult.panicTypeMismatch := by
  decide

/-- A dispatch action is never a patch action. -/
theorem Act.isDispatch_not_isPatch (a : Act M P V) (h : a.isDispatch = true) :
    a.isPatch = false := by
  cases a <;> simp_all [Act.isDispatch, Act.isPatch]

/-- A trace made of dispatch actions holds no patch call. -/
theorem countPatch_eq_zero_of_dispatch (d : List (Act M P V))
    (h : ∀ a ∈ d, a.isDispatch = true) : countPatch d = 0 := by
  refine List.countP_eq_zero.mpr ?_
  intro a ha hpa
  have h2 := Act.isDispatch_not_isPatch a (h a ha)
  simp [h2] at hpa

/-- Shape of a process trace: a prefix of dispatch actions, one per drained
event, followed either by nothing or by the single patch sequence of the
render branch (which is only reached once the whole queue is drained). -/
theorem processLoop_shape (impl : ComponentImpl S M P V) (patchFn : U → V → U × Bool)
    (events : List (ComponentMessage M P)) (closed : Bool) (s : S) (u : U)
    (muted render : Bool) :
    ∃ d tail,
      (processLoop impl patchFn events closed s u muted render).trace = d ++ tail ∧
      (∀ a ∈ d, a.isDispatch = true) ∧
      (tail = [] ∨ ∃ v ok, d.length = events.length ∧
        ((tail = [Act.viewCall, Act.muteCall, Act.patchCall v ok, Act.unmuteCall] ∧
            ok = true) ∨
         (tail = [Act.viewCall, Act.muteCall, Act.patchCall v ok] ∧ ok = false))) := by
  induction events generalizing s render with
  | nil =>
    by_cases hc : closed
    · exact ⟨[], [], by simp [processLoop, hc], by simp, Or.inl rfl⟩
    · by_cases hr : render
      · by_cases hok : (patchFn u (impl.view s)).2 = true
        · refine ⟨[], [Act.viewCall, Act.muteCall, Act.patchCall (impl.view s) true,
              Act.unmuteCall], ?_, by simp, ?_⟩
          · simp [processLoop, hc, hr, hok]
          · exact Or.inr ⟨impl.view s, true, rfl, Or.inl ⟨rfl, rfl⟩⟩
        · refine ⟨[], [Act.viewCall, Act.muteCall, Act.patchCall (impl.view s) false],
              ?_, by simp, ?_⟩
          · simp [processLoop, hc, hr]
            simp at hok
            simp [hok]
          · exact Or.inr ⟨impl.view s, false, rfl, Or.inr ⟨rfl, rfl⟩⟩
      · exact ⟨[], [], by simp [processLoop, hc, hr], by simp, Or.inl rfl⟩
  | cons e rest ih =>
    cases e with
    | Update m =>
      obtain ⟨d, tail, htr, hd, htail⟩ := ih (impl.update s m).1 (render || (impl.update s m).2)
      refine ⟨Act.updateCall m (impl.update s m).2 :: d, tail, ?_, ?_, ?_⟩
      · simp [processLoop, htr]
      · intro a ha
        rcases List.mem_cons.mp ha with h | h
        · subst h; rfl
        · exact hd a h
      · rcases htail with h | ⟨v, ok, hlen, hcase⟩
        · exact Or.inl h
        · exact Or.inr ⟨v, ok, by simp [hlen], hcase⟩
    | Props p =>
      cases hch : impl.change s p with
      | none =>
        refine ⟨[Act.changePanicked p], [], ?_, ?_, Or.inl rfl⟩
        · simp [processLoop, hch]
        · intro a ha
          simp at ha
          subst ha; rfl
      | some st =>
        obtain ⟨d, tail, htr, hd, htail⟩ := ih st.1 (render || st.2)
        refine ⟨Act.changeCall p st.2 :: d, tail, ?_, ?_, ?_⟩
        · simp [processLoop, hch, htr]
        · intro a ha
          rcases List.mem_cons.mp ha with h | h
          · subst h; rfl
          · exact hd a h
        · rcases htail with h | ⟨v, ok, hlen, hcase⟩
          · exact Or.inl h
          · exact Or.inr ⟨v, ok, by simp [hlen], hcase⟩
    | Mounted =>
      obtain ⟨d, tail, htr, hd, htail⟩ := ih (impl.mounted s) render
      refine ⟨Act.mountedCall :: d, tail, ?_, ?_, ?_⟩
      · simp [processLoop, htr]
      · intro a ha
        rcases List.mem_cons.mp ha with h | h
        · subst h; rfl
        · exact hd a h
      · rcases htail with h | ⟨v, ok, hlen, hcase⟩
        · exact Or.inl h
        · exact Or.inr ⟨v, ok, by simp [hlen], hcase⟩
    | Unmounted =>
      obtain ⟨d, tail, htr, hd, htail⟩ := ih (impl.unmounted s) render
      refine ⟨Act.unmountedCall :: d, tail, ?_, ?_, ?_⟩
      · simp [processLoop, htr]
      · intro a ha
        rcases List.mem_cons.mp ha with h | h
        · subst h; rfl
        · exact hd a h
      · rcases htail with h | ⟨v, ok, hlen, hcase⟩
        · exact Or.inl h
        · exact Or.inr ⟨v, ok, by simp [hlen], hcase⟩

/-- C1: for every call to process, however many events of whatever tags are
ready in the merged stream, at most one patch call appears in the trace of
the call; and when one does appear, the first events.length entries of the
trace are exactly one dispatch action per ready event and hold no patch, so
reconciliation is attempted only after every currently-ready event has been
drained and dispatched. -/
theorem process_patch_coalesced (impl : ComponentImpl S M P V)
    (patchFn : U → V → U × Bool) (events : List (ComponentMessage M P))
    (closed : Bool) (s : S) (u : U) (muted : Bool) :
    countPatch (process impl patchFn events closed s u muted).trace ≤ 1 ∧
    (1 ≤ countPatch (process impl patchFn events closed s u muted).trace →
      ((process impl patchFn events closed s u muted).trace.take events.length).length
          = events.length ∧
      (∀ a ∈ (process impl patchFn events closed s u muted).trace.take events.length,
          a.isDispatch = true) ∧
      countPatch ((process impl patchFn events closed s u muted).trace.take events.length)
          = 0) := by
  have hpr : process impl patchFn events closed s u muted
      = processLoop impl patchFn events closed s u muted false := rfl
  obtain ⟨d, tail, htr, hd, htail⟩ :=
    processLoop_shape impl patchFn events closed s u muted false
  have hdz : countPatch d = 0 := countPatch_eq_zero_of_dispatch d hd
  rw [hpr, htr]
  rcases htail with h0 | ⟨v, ok, hlen, hcase⟩
  · subst h0
    rw [List.append_nil, hdz]
    exact ⟨by omega, fun h1 => absurd h1 (by omega)⟩
  · have hct : countPatch tail = 1 := by
      rcases hcase with ⟨ht, _⟩ | ⟨ht, _⟩ <;> subst ht <;>
        simp [countPatch, List.countP_cons, Act.isPatch]
    have hca : countPatch (d ++ tail) = 1 := by
      have := List.countP_append Act.isPatch d tail
      rw [countPatch, this, ← countPatch, ← countPatch, hdz, hct]
    have htk : (d ++ tail).take events.length = d := by
      rw [← hlen]
      exact List.take_left d tail
    rw [hca, htk]
    exact ⟨by omega, fun _ => ⟨hlen, hd, hdz⟩⟩

/-- A patch call can only appear in the trace of the loop when either the
render flag was already set on entry or some dispatched handler in the
trace returned changed = true. -/
theorem processLoop_patch_changed (impl : ComponentImpl S M P V)
    (patchFn : U → V → U × Bool) (events : List (ComponentMessage M P))
    (closed : Bool) (s : S) (u : U) (muted render : Bool) (v : V) (ok : Bool)
    (h : Act.patchCall v ok ∈ (processLoop impl patchFn events closed s u muted render).trace) :
    render = true ∨
      ∃ a ∈ (processLoop impl patchFn events closed s u muted render).trace,
        a.isChangedTrue = true := by
  induction events generalizing s render with
  | nil =>
    by_cases hc : closed
    · simp [processLoop, hc] at h
    · by_cases hr : render
      · exact Or.inl hr
      · simp [processLoop, hc, hr] at h
  | cons e rest ih =>
    cases e with
    | Update m =>
      simp only [processLoop, List.mem_cons] at h
      rcases h with h | h
      · exact absurd h (by simp)
      · rcases ih (impl.update s m).1 (render || (impl.update s m).2) h with hr | ⟨a, ha, hc⟩
        · rcases Bool.or_eq_true_iff.mp hr with hr | hm
          · exact Or.inl hr
          · refine Or.inr ⟨Act.updateCall m (impl.update s m).2, ?_, ?_⟩
            · simp [processLoop]
            · simp [Act.isChangedTrue, hm]
        · refine Or.inr ⟨a, ?_, hc⟩
          simp only [processLoop, List.mem_cons]
          exact Or.inr ha
    | Props p =>
      cases hch : impl.change s p with
      | none =>
        simp [processLoop, hch] at h
      | some st =>
        simp only [processLoop, hch, List.mem_cons] at h
        rcases h with h | h
        · exact absurd h (by simp)
        · rcases ih st.1 (render || st.2) h with hr | ⟨a, ha, hc⟩
          · rcases Bool.or_eq_true_iff.mp hr with hr | hm
            · exact Or.inl hr
            · refine Or.inr ⟨Act.changeCall p st.2, ?_, ?_⟩
              · simp [processLoop, hch]
              · simp [Act.isChangedTrue, hm]
          · refine Or.inr ⟨a, ?_, hc⟩
            simp only [processLoop, hch, List.mem_cons]
            exact Or.inr ha
    | Mounted =>
      simp only [processLoop, List.mem_cons] at h
      rcases h with h | h
      · exact absurd h (by simp)
      · rcases ih (impl.mounted s) render h with hr | ⟨a, ha, hc⟩
        · exact Or.inl hr
        · refine Or.inr ⟨a, ?_, hc⟩
          simp only [processLoop, List.mem_cons]
          exact Or.inr ha
    | Unmounted =>
      simp only [processLoop, List.mem_cons] at h
      rcases h with h | h
      · exact absurd h (by simp)
      · rcases ih (impl.unmounted s) render h with hr | ⟨a, ha, hc⟩
        · exact Or.inl hr
        · refine Or.inr ⟨a, ?_, hc⟩
          simp only [processLoop, List.mem_cons]
          exact Or.inr ha

/-- C2: a call to process performs a patch only when at least one drained
handler of the call returned changed = true: the trace holds a dispatched
update or change call whose result was true.  When every drained handler
returns false, or only Mounted and Unmounted events are drained, no patch
call can appear in the trace. -/
theorem process_patch_needs_changed (impl : ComponentImpl S M P V)
    (patchFn : U → V → U × Bool) (events : List (ComponentMessage M P))
    (closed : Bool) (s : S) (u : U) (muted : Bool) (v : V) (ok : Bool)
    (h : Act.patchCall v ok ∈ (process impl patchFn events closed s u muted).trace) :
    ∃ a ∈ (process impl patchFn events closed s u muted).trace,
      a.isChangedTrue = true := by
  have hpr : process impl patchFn events closed s u muted
      = processLoop impl patchFn events closed s u muted false := rfl
  rw [hpr] at h ⊢
  rcases processLoop_patch_changed impl patchFn events closed s u muted false v ok h with
    hr | hex
  · exact absurd hr (by simp)
  · exact hex

/-- Witness for C2 at a concrete input: an update that returns true leads
to a patch, and the trace indeed holds a handler call that returned true. -/
theorem process_patch_needs_changed_witness :
    ∃ a ∈ (process cImpl cPatchOk [ComponentMessage.Update 1] false 0 0 false).trace,
      a.isChangedTrue = true :=
  process_patch_needs_changed cImpl cPatchOk [ComponentMessage.Update 1] false 0 0 false
    1 true (by decide)

/-- C3: when process reaches the patch-pending state of the loop (queue of
ready events empty, stream not exhausted, render flag set) and the patch
succeeds, it calls view exactly once, mutes the scope, patches with the
output of that view call, unmutes, and returns Poll::Pending; the scope is
not left muted. -/
theorem process_patch_pending_cycle (impl : ComponentImpl S M P V)
    (patchFn : U → V → U × Bool) (s : S) (u : U) (muted : Bool)
    (hok : (patchFn u (impl.view s)).2 = true) :
    (processLoop impl patchFn [] false s u muted true).trace
        = [Act.viewCall, Act.muteCall, Act.patchCall (impl.view s) true,
            Act.unmuteCall] ∧
    (processLoop impl patchFn [] false s u muted true).muted = false ∧
    (processLoop impl patchFn [] false s u muted true).res = PollRes.pending := by
  simp [processLoop, hok]

/-- Witness for C3 at a concrete input. -/
theorem process_patch_pending_cycle_witness :
    (processLoop cImpl cPatchOk [] false 0 0 false true).trace
        = [Act.viewCall, Act.muteCall, Act.patchCall (cImpl.view 0) true,
            Act.unmuteCall] ∧
    (processLoop cImpl cPatchOk [] false 0 0 false true).muted = false ∧
    (processLoop cImpl cPatchOk [] false 0 0 false true).res = PollRes.pending :=
  process_patch_pending_cycle cImpl cPatchOk 0 0 false (by decide)

/-- countPatch over a cons. -/
theorem countPatch_cons (a : Act M P V) (t : List (Act M P V)) :
    countPatch (a :: t) = countPatch t + if a.isPatch then 1 else 0 :=
  List.countP_cons Act.isPatch a t

/-- A ready result arises only from the closed base case of the loop, and
such a call performs no patch. -/
theorem processLoop_ready_closed (impl : ComponentImpl S M P V)
    (patchFn : U → V → U × Bool) (events : List (ComponentMessage M P))
    (closed : Bool) (s : S) (u : U) (muted render : Bool)
    (h : (processLoop impl patchFn events closed s u muted render).res = PollRes.ready) :
    closed = true ∧
      countPatch (processLoop impl patchFn events closed s u muted render).trace = 0 := by
  induction events generalizing s render with
  | nil =>
    by_cases hc : closed
    · simp [processLoop, hc, countPatch]
    · by_cases hr : render
      · by_cases hok : (patchFn u (impl.view s)).2 = true
        · simp [processLoop, hc, hr, hok] at h
        · simp only [Bool.not_eq_true] at hok
          simp [processLoop, hc, hr, hok] at h
      · simp [processLoop, hc, hr] at h
  | cons e rest ih =>
    cases e with
    | Update m =>
      simp only [processLoop] at h ⊢
      obtain ⟨hc, hz⟩ := ih (impl.update s m).1 (render || (impl.update s m).2) h
      exact ⟨hc, by rw [countPatch_cons, hz]; simp [Act.isPatch]⟩
    | Props p =>
      cases hch : impl.change s p with
      | none => simp [processLoop, hch] at h
      | some st =>
        simp only [processLoop, hch] at h ⊢
        obtain ⟨hc, hz⟩ := ih st.1 (render || st.2) h
        exact ⟨hc, by rw [countPatch_cons, hz]; simp [Act.isPatch]⟩
    | Mounted =>
      simp only [processLoop] at h ⊢
      obtain ⟨hc, hz⟩ := ih (impl.mounted s) render h
      exact ⟨hc, by rw [countPatch_cons, hz]; simp [Act.isPatch]⟩
    | Unmounted =>
      simp only [processLoop] at h ⊢
      obtain ⟨hc, hz⟩ := ih (impl.unmounted s) render h
      exact ⟨hc, by rw [countPatch_cons, hz]; simp [Act.isPatch]⟩

/-- Counterexample to C4 as stated: one ready Update event whose handler
returns true, with the stream exhausted behind it.  The dirty flag is set
when exhaustion is observed (the trace shows the handler returned true),
yet process returns Poll::Ready without any patch call, discarding the
pending re-render instead of going to patch-pending. -/
theorem process_exhaustion_discards_dirty_cex :
    (process cImpl cPatchOk [ComponentMessage.Update 1] true 0 0 false).trace
        = [Act.updateCall 1 true] ∧
    (process cImpl cPatchOk [ComponentMessage.Update 1] true 0 0 false).res
        = PollRes.ready ∧
    countPatch (process cImpl cPatchOk [ComponentMessage.Update 1] true 0 0 false).trace
        = 0 := by
  decide

/-- C4 amended: process returns Ready only when the merged stream signals
exhaustion (all senders dropped); a completing call performs no patch, so
when the dirty flag is set at exhaustion the reactor terminates anyway and
the pending re-render is discarded. -/
theorem process_ready_only_on_exhaustion (impl : ComponentImpl S M P V)
    (patchFn : U → V → U × Bool) (events : List (ComponentMessage M P))
    (closed : Bool) (s : S) (u : U) (muted : Bool)
    (h : (process impl patchFn events closed s u muted).res = PollRes.ready) :
    closed = true ∧
      countPatch (process impl patchFn events closed s u muted).trace = 0 :=
  processLoop_ready_closed impl patchFn events closed s u muted false h

/-- Witness for the amended C4 at a concrete input. -/
theorem process_ready_only_on_exhaustion_witness :
    true = true ∧
      countPatch (process cImpl cPatchOk [ComponentMessage.Update 1] true 0 0 false).trace
        = 0 :=
  process_ready_only_on_exhaustion cImpl cPatchOk [ComponentMessage.Update 1] true 0 0
    false (by decide)

/-- A failed patch call ends the loop at once: no action follows it in the
trace, the result is the panic of the unimplemented! at line 148, and the
scope is left muted (the unmute at line 150 is never reached). -/
theorem processLoop_failed_patch_fatal (impl : ComponentImpl S M P V)
    (patchFn : U → V → U × Bool) (events : List (ComponentMessage M P))
    (closed : Bool) (s : S) (u : U) (muted render : Bool) (v : V)
    (h : Act.patchCall v false ∈ (processLoop impl patchFn events closed s u muted render).trace) :
    (processLoop impl patchFn events closed s u muted render).res
        = PollRes.panicked "failed patch" ∧
    (processLoop impl patchFn events closed s u muted render).muted = true ∧
    ∃ pre, (processLoop impl patchFn events closed s u muted render).trace
        = pre ++ [Act.patchCall v false] := by
  induction events generalizing s render with
  | nil =>
    by_cases hc : closed
    · simp [processLoop, hc] at h
    · by_cases hr : render
      · by_cases hok : (patchFn u (impl.view s)).2 = true
        · simp [processLoop, hc, hr, hok] at h
        · simp only [Bool.not_eq_true] at hok
          simp only [processLoop, hc, hr, hok] at h ⊢
          simp at h
          simp [h, hok]
          exact ⟨[Act.viewCall, Act.muteCall], rfl⟩
      · simp [processLoop, hc, hr] at h
  | cons e rest ih =>
    cases e with
    | Update m =>
      simp only [processLoop, List.mem_cons] at h
      rcases h with h | h
      · exact absurd h (by simp)
      · obtain ⟨hres, hmut, pre, hpre⟩ := ih (impl.update s m).1 (render || (impl.update s m).2) h
        exact ⟨hres, hmut, Act.updateCall m (impl.update s m).2 :: pre, by
          simp [processLoop, hpre]⟩
    | Props p =>
      cases hch : impl.change s p with
      | none => simp [processLoop, hch] at h
      | some st =>
        simp only [processLoop, hch, List.mem_cons] at h
        rcases h with h | h
        · exact absurd h (by simp)
        · obtain ⟨hres, hmut, pre, hpre⟩ := ih st.1 (render || st.2) h
          refine ⟨?_, ?_, Act.changeCall p st.2 :: pre, ?_⟩ <;>
            simp [processLoop, hch, hres, hmut, hpre]
    | Mounted =>
      simp only [processLoop, List.mem_cons] at h
      rcases h with h | h
      · exact absurd h (by simp)
      · obtain ⟨hres, hmut, pre, hpre⟩ := ih (impl.mounted s) render h
        exact ⟨hres, hmut, Act.mountedCall :: pre, by simp [processLoop, hpre]⟩
    | Unmounted =>
      simp only [processLoop, List.mem_cons] at h
      rcases h with h | h
      · exact absurd h (by simp)
      · obtain ⟨hres, hmut, pre, hpre⟩ := ih (impl.unmounted s) render h
        exact ⟨hres, hmut, Act.unmountedCall :: pre, by simp [processLoop, hpre]⟩

/-- C6: when the reconciliation reports failure (patch returns false), the
call to process fails loudly with the panic of line 148 and no recovery:
the failed patch is the last action of the trace (no further event is
handled, no unmute runs) and the scope stays muted. -/
theorem process_failed_patch_fatal (impl : ComponentImpl S M P V)
    (patchFn : U → V → U × Bool) (events : List (ComponentMessage M P))
    (closed : Bool) (s : S) (u : U) (muted : Bool) (v : V)
    (h : Act.patchCall v false ∈ (process impl patchFn events closed s u muted).trace) :
    (process impl patchFn events closed s u muted).res
        = PollRes.panicked "failed patch" ∧
    (process impl patchFn events closed s u muted).muted = true ∧
    ∃ pre, (process impl patchFn events closed s u muted).trace
        = pre ++ [Act.patchCall v false] :=
  processLoop_failed_patch_fatal impl patchFn events closed s u muted false v h

/-- Witness for C6 at a concrete input with a failing patch function. -/
theorem process_failed_patch_fatal_witness :
    (process cImpl cPatchBad [ComponentMessage.Update 1] false 0 0 false).res
        = PollRes.panicked "failed patch" ∧
    (process cImpl cPatchBad [ComponentMessage.Update 1] false 0 0 false).muted = true ∧
    ∃ pre, (process cImpl cPatchBad [ComponentMessage.Update 1] false 0 0 false).trace
        = pre ++ [Act.patchCall (cImpl.view 1) false] :=
  process_failed_patch_fatal cImpl cPatchBad [ComponentMessage.Update 1] false 0 0 false
    (cImpl.view 1) (by decide)

/-- A queue holding only Mounted and Unmounted events is drained into the
matching hook calls: the trace maps each event to its hook action, the
state folds the hooks, and nothing else changes; the render flag never
moves off false, so the call ends in the plain suspended or terminated
outcome. -/
theorem processLoop_hooks (impl : ComponentImpl S M P V)
    (patchFn : U → V → U × Bool) (events : List (ComponentMessage M P))
    (closed : Bool) (s : S) (u : U) (muted : Bool)
    (h : events.all ComponentMessage.isHookMsg = true) :
    processLoop impl patchFn events closed s u muted false =
      { trace := events.map hookAction,
        state := events.foldl (hookStep impl) s,
        ui := u, muted := muted,
        res := if closed then PollRes.ready else PollRes.pending } := by
  induction events generalizing s with
  | nil => by_cases hc : closed <;> simp [processLoop, hc]
  | cons e rest ih =>
    cases e with
    | Update m => simp [List.all_cons, ComponentMessage.isHookMsg] at h
    | Props p => simp [List.all_cons, ComponentMessage.isHookMsg] at h
    | Mounted =>
      rw [List.all_cons] at h
      simp only [ComponentMessage.isHookMsg, Bool.true_and] at h
      simp [processLoop, ih (impl.mounted s) h, hookAction, hookStep]
    | Unmounted =>
      rw [List.all_cons] at h
      simp only [ComponentMessage.isHookMsg, Bool.true_and] at h
      simp [processLoop, ih (impl.unmounted s) h, hookAction, hookStep]

/-- C7: when every ready event is Mounted or Unmounted, the call dispatches
exactly the matching hook per event in order (the trace is the map of the
events to their hook calls, the state the fold of the hooks), the dirty
flag stays unchanged, and no reconciliation happens: no patch call, the ui
state and mute state untouched, and the result is the plain suspended or
terminated outcome. -/
theorem process_hooks_no_reconcile (impl : ComponentImpl S M P V)
    (patchFn : U → V → U × Bool) (events : List (ComponentMessage M P))
    (closed : Bool) (s : S) (u : U) (muted : Bool)
    (h : events.all ComponentMessage.isHookMsg = true) :
    (process impl patchFn events closed s u muted).trace = events.map hookAction ∧
    (process impl patchFn events closed s u muted).state
        = events.foldl (hookStep impl) s ∧
    (process impl patchFn events closed s u muted).ui = u ∧
    (process impl patchFn events closed s u muted).muted = muted ∧
    (process impl patchFn events closed s u muted).res
        = (if closed then PollRes.ready else PollRes.pending) ∧
    countPatch (process impl patchFn events closed s u muted).trace = 0 := by
  have hpr : process impl patchFn events closed s u muted
      = processLoop impl patchFn events closed s u muted false := rfl
  rw [hpr, processLoop_hooks impl patchFn events closed s u muted h]
  refine ⟨rfl, rfl, rfl, rfl, rfl, ?_⟩
  refine List.countP_eq_zero.mpr ?_
  intro a ha hpa
  obtain ⟨e, _, rfl⟩ := List.mem_map.mp ha
  cases e <;> simp [hookAction, Act.isPatch] at hpa

/-- Witness for C7 at a concrete input. -/
theorem process_hooks_no_reconcile_witness :
    (process cImpl cPatchOk [ComponentMessage.Mounted, ComponentMessage.Unmounted]
        false 0 0 false).trace
        = [ComponentMessage.Mounted, ComponentMessage.Unmounted].map hookAction ∧
    (process cImpl cPatchOk [ComponentMessage.Mounted, ComponentMessage.Unmounted]
        false 0 0 false).state
        = [ComponentMessage.Mounted, ComponentMessage.Unmounted].foldl (hookStep cImpl) 0 ∧
    (process cImpl cPatchOk [ComponentMessage.Mounted, ComponentMessage.Unmounted]
        false 0 0 false).ui = 0 ∧
    (process cImpl cPatchOk [ComponentMessage.Mounted, ComponentMessage.Unmounted]
        false 0 0 false).muted = false ∧
    (process cImpl cPatchOk [ComponentMessage.Mounted, ComponentMessage.Unmounted]
        false 0 0 false).res
        = (if false then PollRes.ready else PollRes.pending) ∧
    countPatch (process cImpl cPatchOk [ComponentMessage.Mounted, ComponentMessage.Unmounted]
        false 0 0 false).trace = 0 :=
  process_hooks_no_reconcile cImpl cPatchOk
    [ComponentMessage.Mounted, ComponentMessage.Unmounted] false 0 0 false (by decide)

/-- With the default update body, a queue of Update events is drained into
handler calls that all return false: nothing changes and no patch is
reached. -/
theorem processLoop_default_update (impl : ComponentImpl S M P V)
    (patchFn : U → V → U × Bool) (events : List (ComponentMessage M P))
    (closed : Bool) (s : S) (u : U) (muted : Bool)
    (hup : impl.update = defaultUpdate S M)
    (h : events.all ComponentMessage.isUpdateMsg = true) :
    processLoop impl patchFn events closed s u muted false =
      { trace := events.map hookAction, state := s, ui := u, muted := muted,
        res := if closed then PollRes.ready else PollRes.pending } := by
  induction events generalizing s with
  | nil => by_cases hc : closed <;> simp [processLoop, hc]
  | cons e rest ih =>
    cases e with
    | Update m =>
      rw [List.all_cons] at h
      simp only [ComponentMessage.isUpdateMsg, Bool.true_and] at h
      simp [processLoop, hup, defaultUpdate, ih s h, hookAction]
    | Props p => simp [List.all_cons, ComponentMessage.isUpdateMsg] at h
    | Mounted => simp [List.all_cons, ComponentMessage.isUpdateMsg] at h
    | Unmounted => simp [List.all_cons, ComponentMessage.isUpdateMsg] at h

/-- C9: for a component whose update is the default body (ignore the
message, return false), any number of delivered Update events leave the
state untouched and the dirty flag unset, and never cause a
reconciliation: the trace holds only handler calls that returned false, no
patch call appears, and the call ends in the plain suspended or terminated
outcome. -/
theorem process_default_update_no_reconcile (impl : ComponentImpl S M P V)
    (patchFn : U → V → U × Bool) (events : List (ComponentMessage M P))
    (closed : Bool) (s : S) (u : U) (muted : Bool)
    (hup : impl.update = defaultUpdate S M)
    (h : events.all ComponentMessage.isUpdateMsg = true) :
    (process impl patchFn events closed s u muted).trace = events.map hookAction ∧
    (process impl patchFn events closed s u muted).state = s ∧
    (process impl patchFn events closed s u muted).ui = u ∧
    (process impl patchFn events closed s u muted).muted = muted ∧
    (process impl patchFn events closed s u muted).res
        = (if closed then PollRes.ready else PollRes.pending) ∧
    countPatch (process impl patchFn events closed s u muted).trace = 0 := by
  have hpr : process impl patchFn events closed s u muted
      = processLoop impl patchFn events closed s u muted false := rfl
  rw [hpr, processLoop_default_update impl patchFn events closed s u muted hup h]
  refine ⟨rfl, rfl, rfl, rfl, rfl, ?_⟩
  refine List.countP_eq_zero.mpr ?_
  intro a ha hpa
  obtain ⟨e, _, rfl⟩ := List.mem_map.mp ha
  cases e <;> simp [hookAction, Act.isPatch] at hpa

/-- Witness for C9 at a concrete input: two Update events delivered to a
component with the default update body. -/
theorem process_default_update_no_reconcile_witness :
    (process cImplNoUp cPatchOk [ComponentMessage.Update 1, ComponentMessage.Update 2]
        false 0 0 false).trace
        = [ComponentMessage.Update 1, ComponentMessage.Update 2].map hookAction ∧
    (process cImplNoUp cPatchOk [ComponentMessage.Update 1, ComponentMessage.Update 2]
        false 0 0 false).state = 0 ∧
    (process cImplNoUp cPatchOk [ComponentMessage.Update 1, ComponentMessage.Update 2]
        false 0 0 false).ui = 0 ∧
    (process cImplNoUp cPatchOk [ComponentMessage.Update 1, ComponentMessage.Update 2]
        false 0 0 false).muted = false ∧
    (process cImplNoUp cPatchOk [ComponentMessage.Update 1, ComponentMessage.Update 2]
        false 0 0 false).res
        = (if false then PollRes.ready else PollRes.pending) ∧
    countPatch (process cImplNoUp cPatchOk
        [ComponentMessage.Update 1, ComponentMessage.Update 2] false 0 0 false).trace = 0 :=
  process_default_update_no_reconcile cImplNoUp cPatchOk
    [ComponentMessage.Update 1, ComponentMessage.Update 2] false 0 0 false rfl (by decide)

/-- C10: for a component whose change is the default body (unimplemented!),
a single delivered Props event makes process panic while dispatching it:
the call ends in the change panic, not a recoverable error and not a
no-op. -/
theorem process_default_change_panics (impl : ComponentImpl S M P V)
    (patchFn : U → V → U × Bool) (p : P) (closed : Bool) (s : S) (u : U)
    (muted : Bool) (hch : impl.change = defaultChange S P) :
    (process impl patchFn [ComponentMessage.Props p] closed s u muted).res
        = PollRes.panicked "change unimplemented" ∧
    (process impl patchFn [ComponentMessage.Props p] closed s u muted).trace
        = [Act.changePanicked p] := by
  simp [process, processLoop, hch, defaultChange]

/-- Witness for C10 at a concrete input. -/
theorem process_default_change_panics_witness :
    (process cImplNoCh cPatchOk [ComponentMessage.Props 7] false 0 0 false).res
        = PollRes.panicked "change unimplemented" ∧
    (process cImplNoCh cPatchOk [ComponentMessage.Props 7] false 0 0 false).trace
        = [Act.changePanicked 7] :=
  process_default_change_panics cImplNoCh cPatchOk 7 false 0 0 false rfl

/-- C5: a poll overwrites the thread-local slot with the parent scope of
the task (erased) and a weak reference to its root widget, without reading
the previous content (two polls of the same task from any two prior slot
states publish and leave the same thing); and when the poll completes with
either outcome (no panic), the slot is reset to the empty default value. -/
theorem poll_overwrites_then_clears_context (t : ComponentTaskModel S M P V U)
    (tl tl2 : LocalContext) :
    pollTask t tl = pollTask t tl2 ∧
    (pollTask t tl).published
        = { parent_scope := t.parent_scope.map Scope.intoAny,
            current_widget := some (t.rootOf t.ui) } ∧
    ((pollTask t tl).proc.res.isPanicked = false →
      (pollTask t tl).final = LocalContext.empty) := by
  refine ⟨rfl, ?_, ?_⟩
  · by_cases hp : (process t.impl t.patchFn t.events t.closed t.state t.ui t.muted).res.isPanicked
        = true
    · simp [pollTask, hp, publishedContext]
    · simp [pollTask, hp, publishedContext]
  · intro hf
    by_cases hp : (process t.impl t.patchFn t.events t.closed t.state t.ui t.muted).res.isPanicked
        = true
    · simp [pollTask, hp] at hf
    · simp [pollTask, hp]

/-- C8: current_parent_scope panics when the slot holds no parent scope,
panics when the recorded component type of the held parent scope does not
match the requested one, and otherwise returns a clone of the typed parent
scope that the poll in progress published. -/
theorem current_parent_scope_contract (expected : Nat) (ctx : LocalContext)
    (t : ComponentTaskModel S M P V U) (p : Scope) :
    (ctx.parent_scope = none →
        current_parent_scope expected ctx = CpsResult.panicNoParent) ∧
    (∀ a, ctx.parent_scope = some a → a.typeId ≠ expected →
        current_parent_scope expected ctx = CpsResult.panicTypeMismatch) ∧
    (t.parent_scope = some p → p.typeId = expected →
        current_parent_scope expected (publishedContext t) = CpsResult.ok p) := by
  refine ⟨?_, ?_, ?_⟩
  · intro h
    simp [current_parent_scope, h]
  · intro a ha hne
    simp [current_parent_scope, ha, AnyScope.tryGet, hne]
  · intro hp he
    simp [current_parent_scope, publishedContext, hp, Scope.intoAny, AnyScope.tryGet, he]
    cases p
    simp at he
    simp [he]
